import Mathlib

/-!
Verification of the Go-Reilly book retrieval service.

The Go sources are shallowly embedded: Go strings iterated by the code are
lists of characters (every character the embedded functions manipulate is
ASCII, where Go byte indexing and character counting coincide), fallible
calls return `Option`, the download pipeline is a straight-line function of
an environment recording the result of each external call, and the two
counting semaphores are a guarded transition system.
-/

set_option maxHeartbeats 1000000

namespace GoReilly

/-! ## Strings (internal/handlers, unnamed handlers file)

`contains`, `findSubstring`, `cleanFilename` and `formatError` from the
handlers package. -/

/-- A Go string viewed as its list of characters. -/
abbrev GoStr := List Char

/-- Go slice expression `s[i:j]`: drop `i` characters, keep `j - i`. -/
def goSlice (s : GoStr) (i j : Nat) : GoStr := (s.drop i).take (j - i)

/-- `findSubstring(s, substr)`: the loop `for i := 0; i <= len(s)-len(substr); i++`
checks `s[i:i+len(substr)] == substr`.  The Go bound `len(s)-len(substr)` is a
possibly negative `int`, so the body runs for `len(s)-len(substr)+1` values of
`i` when `len(substr) <= len(s)` and not at all otherwise. -/
def findSubstring (s substr : GoStr) : Bool :=
  (List.range (if substr.length ≤ s.length then s.length - substr.length + 1 else 0)).any
    (fun i => goSlice s i (i + substr.length) == substr)

/-- `contains(s, substr)` from the handlers package:
`len(s) >= len(substr) && (s == substr || len(s) > len(substr) &&
(s[:len(substr)] == substr || s[len(s)-len(substr):] == substr ||
findSubstring(s, substr)))`. -/
def contains (s substr : GoStr) : Bool :=
  decide (substr.length ≤ s.length) &&
    (s == substr ||
      (decide (substr.length < s.length) &&
        (goSlice s 0 substr.length == substr ||
         (s.drop (s.length - substr.length) == substr ||
          findSubstring s substr))))

/-- The specification-side predicate: `substr` occurs as a contiguous
substring of `s`. -/
def occursIn (substr s : GoStr) : Prop := ∃ pre post, pre ++ substr ++ post = s

/-- The character whitelist of `cleanFilename`:
`(c >= 'a' && c <= 'z') || (c >= 'A' && c <= 'Z') || (c >= '0' && c <= '9')
|| c == ' ' || c == '-' || c == '_'`. -/
def isAllowedChar (c : Char) : Bool :=
  (decide ('a' ≤ c) && decide (c ≤ 'z')) ||
  (decide ('A' ≤ c) && decide (c ≤ 'Z')) ||
  (decide ('0' ≤ c) && decide (c ≤ '9')) ||
  c == ' ' || c == '-' || c == '_'

/-- `cleanFilename` from the handlers package: build `result` by appending
each whitelisted character of `name`, then truncate with `result[:100]` when
`len(result) > 100`.  All retained characters are single-byte ASCII, so the
Go byte length and byte truncation coincide with character count and
character truncation. -/
def cleanFilename (name : GoStr) : GoStr :=
  let result := name.foldl (fun acc c => if isAllowedChar c then acc ++ [c] else acc) []
  if 100 < result.length then result.take 100 else result

/-- `formatError` from the handlers package: substring probes on the error
text select a user-facing message. -/
def formatError (msg : GoStr) : GoStr :=
  if contains msg "Book not found".toList || contains msg "API error".toList then
    "Book not found. Please check the Book ID and try again.".toList
  else if contains msg "Authentication failed".toList || contains msg "cookies.json".toList then
    "Authentication failed. Please update your cookies.json file.".toList
  else if contains msg "timeout".toList || contains msg "Timeout".toList then
    "Request timed out. Please try again.".toList
  else msg

/-! ### Helper lemmas for `contains` and `cleanFilename` -/

theorem findSubstring_iff (s substr : GoStr) :
    findSubstring s substr = true ↔
      ∃ i, i + substr.length ≤ s.length ∧ (s.drop i).take substr.length = substr := by
  unfold findSubstring goSlice
  rw [List.any_eq_true]
  constructor
  · rintro ⟨i, hi, hslice⟩
    rw [List.mem_range] at hi
    rw [beq_iff_eq] at hslice
    split at hi
    · refine ⟨i, by omega, ?_⟩
      simpa [Nat.add_sub_cancel_left] using hslice
    · omega
  · rintro ⟨i, hle, hslice⟩
    refine ⟨i, ?_, ?_⟩
    · rw [List.mem_range]
      split
      · omega
      · omega
    · rw [beq_iff_eq]
      simpa [Nat.add_sub_cancel_left] using hslice

theorem occursIn_iff_exists_drop_take (s substr : GoStr) :
    occursIn substr s ↔
      ∃ i, i + substr.length ≤ s.length ∧ (s.drop i).take substr.length = substr := by
  constructor
  · rintro ⟨pre, post, rfl⟩
    refine ⟨pre.length, ?_, ?_⟩
    · simp
    · rw [List.append_assoc, List.drop_left, List.take_left]
  · rintro ⟨i, hle, htake⟩
    refine ⟨s.take i, (s.drop i).drop substr.length, ?_⟩
    calc s.take i ++ substr ++ (s.drop i).drop substr.length
        = s.take i ++ ((s.drop i).take substr.length ++ (s.drop i).drop substr.length) := by
          rw [htake, List.append_assoc]
      _ = s.take i ++ s.drop i := by rw [List.take_append_drop]
      _ = s := List.take_append_drop i s

theorem contains_iff_aux (s substr : GoStr) :
    contains s substr = true ↔
      ∃ i, i + substr.length ≤ s.length ∧ (s.drop i).take substr.length = substr := by
  simp only [contains, Bool.and_eq_true, Bool.or_eq_true, decide_eq_true_eq, beq_iff_eq]
  constructor
  · rintro ⟨hlen, heq | ⟨hlt, hpre | hsuf | hfind⟩⟩
    · subst heq
      exact ⟨0, by omega, by simp⟩
    · refine ⟨0, by omega, ?_⟩
      simpa [goSlice] using hpre
    · refine ⟨s.length - substr.length, by omega, ?_⟩
      rw [hsuf, List.take_length]
    · exact (findSubstring_iff s substr).mp hfind
  · rintro ⟨i, hle, htake⟩
    have hlen : substr.length ≤ s.length := by omega
    refine ⟨hlen, ?_⟩
    rcases Nat.lt_or_ge substr.length s.length with hlt | hge
    · exact Or.inr ⟨hlt, Or.inr (Or.inr ((findSubstring_iff s substr).mpr ⟨i, hle, htake⟩))⟩
    · left
      have hi : i = 0 := by omega
      subst hi
      rw [List.drop_zero] at htake
      have : s.length = substr.length := by omega
      rw [← htake]
      exact (List.take_of_length_le (by omega)).symm

theorem foldl_clean_eq_filter (l : GoStr) : ∀ acc : GoStr,
    l.foldl (fun acc c => if isAllowedChar c then acc ++ [c] else acc) acc
      = acc ++ l.filter isAllowedChar := by
  induction l with
  | nil => intro acc; simp
  | cons c l ih =>
    intro acc
    rw [List.foldl_cons, List.filter_cons]
    by_cases h : isAllowedChar c
    · simp only [h, if_pos, ih]
      simp
    · simp only [h, if_neg, ih]
      simp [h]

theorem cleanFilename_eq_filter_take (name : GoStr) :
    cleanFilename name = (name.filter isAllowedChar).take 100 := by
  simp only [cleanFilename]
  rw [foldl_clean_eq_filter, List.nil_append]
  split
  · rfl
  · rename_i h
    exact (List.take_of_length_le (by omega)).symm

theorem isAllowedChar_ascii (c : Char) (h : isAllowedChar c = true) : c.toNat < 128 := by
  simp only [isAllowedChar, Bool.or_eq_true, Bool.and_eq_true, decide_eq_true_eq,
    beq_iff_eq] at h
  rcases h with ((((⟨_, h2⟩ | ⟨_, h2⟩) | ⟨_, h2⟩) | h2) | h2) | h2
  · have h3 : c.toNat ≤ 122 := by
      simpa [Char.toNat] using UInt32.le_def.mp (Char.le_def.mp h2)
    omega
  · have h3 : c.toNat ≤ 90 := by
      simpa [Char.toNat] using UInt32.le_def.mp (Char.le_def.mp h2)
    omega
  · have h3 : c.toNat ≤ 57 := by
      simpa [Char.toNat] using UInt32.le_def.mp (Char.le_def.mp h2)
    omega
  · subst h2; decide
  · subst h2; decide
  · subst h2; decide

/-! ## Converter gateway (`convertWithCalibre`)

The subprocess invocation is embedded as a function of the observable
results of the run: whether `cmd.Run()` returned nil, the text of the run
error otherwise, the bytes captured on stderr (ASCII, so characters are
bytes), and whether the five-minute wall clock elapsed, in which case the
`time.AfterFunc` timer killed the process.  A killed process makes
`cmd.Run()` report an error, so `runOk = false` whenever
`deadlineElapsed = true` in any run the program can produce. -/

/-- The timeout constant `5 * time.Minute` of `convertWithCalibre`, in seconds. -/
def convertTimeoutSeconds : Nat := 5 * 60

/-- Observable environment of one `convertWithCalibre` invocation. -/
structure ConvertEnv where
  runOk : Bool
  runErrMsg : GoStr
  stderrOutput : GoStr
  deadlineElapsed : Bool
  deriving DecidableEq, Repr

/-- Truncation applied to the logged stderr text: `errorMsg[:500] + "..."`
when `len(errorMsg) > 500`. -/
def truncateErrMsg (msg : GoStr) : GoStr :=
  if 500 < msg.length then msg.take 500 ++ "...".toList else msg

/-- Result of one `convertWithCalibre` invocation: the error value returned
to the caller (text of `fmt.Errorf("conversion failed: %w", err)`), whether
the timer killed the subprocess, and the stderr excerpt written to the log. -/
structure ConvertResult where
  retErr : Option GoStr
  killed : Bool
  loggedStderr : Option GoStr
  deriving DecidableEq, Repr

/-- `convertWithCalibre` from the handlers package.  The returned error
wraps the run error; the captured stderr is only logged, truncated past 500
bytes, and nothing in the returned value distinguishes a timeout kill from
any other failed run. -/
def convertWithCalibre (env : ConvertEnv) : ConvertResult :=
  { killed := env.deadlineElapsed
  , retErr :=
      if env.runOk then none
      else some ("conversion failed: ".toList ++ env.runErrMsg)
  , loggedStderr :=
      if env.runOk then none
      else if env.stderrOutput.isEmpty then none
      else some (truncateErrMsg env.stderrOutput) }

/-! ## File system and `copyFile` -/

/-- A file system: paths to file contents (byte sequences). -/
def FileSys : Type := String → Option (List Nat)

/-- `copyFile` from the handlers package: `os.ReadFile(src)` then
`os.WriteFile(dst, input, 0644)`.  `writeOk` records whether the write
syscall succeeded; the result is the updated file system, or `none` when the
read or the write failed. -/
def copyFile (fs : FileSys) (writeOk : Bool) (src dst : String) : Option FileSys :=
  match fs src with
  | none => none
  | some bytes => if writeOk then some (fun p => if p = dst then some bytes else fs p) else none

/-! ## Upstream client progress updates (internal/models, oreilly package)

`Client.updateProgress` forwards `(stage, progress, message)` to the
registered callback; in `downloadBookAsync` that callback performs
`download.UpdateStatus("downloading", message, progress)`.  The updates a
successful `Client.Download()` run emits, in program order:
`GetBookInfo` 15, `GetChapters` 25, `downloadCover` 28, one update per
completed chapter from `DownloadContent`, then the five updates of
`CreateEPUB`. -/

/-- Progress updates emitted by `Client.CreateEPUB`: 50 (structure),
60 (content.opf), 70 (toc.ncx), 80 (packaging), 100 (`EPUB created
successfully!`). -/
def createEPUBProgress : List Nat := [50, 60, 70, 80, 100]

/-- Progress updates of `Client.DownloadContent` for a one-chapter book:
`30 + int(float64(1)/float64(1)*20)`; the float arithmetic is exact here and
yields 50. -/
def downloadContentProgressOneChapter : List Nat := [50]

/-- Progress updates emitted inside a successful `Client.Download()` on a
one-chapter book. -/
def clientDownloadProgressOneChapter : List Nat :=
  [15, 25, 28] ++ downloadContentProgressOneChapter ++ createEPUBProgress

/-! ## The download pipeline (`downloadBookAsync`)

One run of the orchestrator goroutine is a straight-line function of an
environment recording the result of each external interaction, producing
the ordered list of its observable events and its outcome.  Sources of the
branches, in program order: the select on `downloadSemaphore` (slot free or
queue-log then blocking send); the `downloads[downloadID]` lookup; the
`oreilly.NewClient` error; the `client.Download()` error with the progress
callback firing `UpdateStatus("downloading", message, progress)`; the
Calibre conversion guarded by `conversionSemaphore` with the `copyFile`
fallback; then the MinIO branch: upload, presigned URL, completion — or,
with MinIO unconfigured, the storage-unavailable failure. -/

/-- One observable event of a pipeline run: a status write through
`Download.UpdateStatus`, an error write through `Download.SetError`, the
queue log line, or semaphore traffic on the two channels. -/
inductive Ev
  | update (status : String) (progress : Nat)
  | setErr (msg : GoStr)
  | queueLog
  | acqFetch
  | relFetch
  | acqConv
  | relConv
  deriving DecidableEq, Repr

/-- Environment of one `downloadBookAsync` run. -/
structure RunEnv where
  slotFree : Bool
  jobPresent : Bool
  newClientErr : Option GoStr
  fetchErr : Option GoStr
  fetchProgress : List Nat
  convertFails : Bool
  copyOk : Bool
  copyErrText : GoStr
  minioConfigured : Bool
  uploadErr : Bool
  presignErr : Bool
  deriving Repr

/-- Outcome of one pipeline run. -/
inductive Outcome
  | abandoned
  | failed (msg : GoStr)
  | completed
  deriving DecidableEq, Repr

/-- The failure message of the fallback path:
`fmt.Sprintf("Failed to save EPUB file: %v", err)`. -/
def copyFailMsg (detail : GoStr) : GoStr := "Failed to save EPUB file: ".toList ++ detail

/-- The failure message of the storage-unavailable path. -/
def storageUnavailableMsg : GoStr :=
  "Storage service unavailable - please contact administrator".toList

/-- One run of `downloadBookAsync`, transcribed line by line.  The deferred
read of `downloadSemaphore` releases the fetch slot on every return path;
the conversion slot is released either right before the fallback-failure
return or immediately after the fallback. -/
def downloadBookAsync (env : RunEnv) : List Ev × Outcome :=
  let pre : List Ev := if env.slotFree then [Ev.acqFetch] else [Ev.queueLog, Ev.acqFetch]
  if env.jobPresent = false then
    (pre ++ [Ev.relFetch], Outcome.abandoned)
  else
    let evs1 := pre ++ [Ev.update "downloading" 10]
    match env.newClientErr with
    | some e =>
      (evs1 ++ [Ev.setErr (formatError e), Ev.relFetch], Outcome.failed (formatError e))
    | none =>
      let evs2 := evs1 ++ [Ev.update "downloading" 20]
                       ++ env.fetchProgress.map (Ev.update "downloading")
      match env.fetchErr with
      | some e =>
        (evs2 ++ [Ev.setErr (formatError e), Ev.relFetch], Outcome.failed (formatError e))
      | none =>
        let evs3 := evs2 ++ [Ev.update "downloading" 80, Ev.acqConv]
        if env.convertFails ∧ env.copyOk = false then
          (evs3 ++ [Ev.relConv, Ev.setErr (copyFailMsg env.copyErrText), Ev.relFetch],
           Outcome.failed (copyFailMsg env.copyErrText))
        else
          let evs4 := evs3 ++ [Ev.relConv]
          if env.minioConfigured then
            let evs5 := evs4 ++ [Ev.update "downloading" 90]
            if env.uploadErr then
              (evs5 ++ [Ev.setErr "Failed to upload to storage".toList, Ev.relFetch],
               Outcome.failed "Failed to upload to storage".toList)
            else if env.presignErr then
              (evs5 ++ [Ev.setErr "Failed to generate download URL".toList, Ev.relFetch],
               Outcome.failed "Failed to generate download URL".toList)
            else
              (evs5 ++ [Ev.update "completed" 100, Ev.update "completed" 100, Ev.relFetch],
               Outcome.completed)
          else
            (evs4 ++ [Ev.setErr storageUnavailableMsg, Ev.relFetch],
             Outcome.failed storageUnavailableMsg)

/-- The progress values written by the status updates of an event list, in
order. -/
def progressTrace (evs : List Ev) : List Nat :=
  evs.filterMap (fun e => match e with | Ev.update _ p => some p | _ => none)

/-- Whether an event is a status update. -/
def isUpdate : Ev → Bool
  | Ev.update _ _ => true
  | _ => false

/-- Whether an event is a status update carrying the `queued` status. -/
def isQueuedUpdate : Ev → Bool
  | Ev.update s _ => s == "queued"
  | _ => false

/-- Whether an event is semaphore traffic. -/
def isSemEv : Ev → Bool
  | Ev.acqFetch | Ev.relFetch | Ev.acqConv | Ev.relConv => true
  | _ => false

/-- The environment of a successful non-cached run on a one-chapter book
with every backend available and an immediately free slot. -/
def oneChapterSuccessEnv : RunEnv :=
  ⟨true, true, none, none, clientDownloadProgressOneChapter,
   false, true, [], true, false, false⟩

/-! ## Front-door handlers

`DownloadBookHandler`, `GetStatusHandler` and `GetFileHandler` from the
handlers package, as functions of the decoded request and the results of
their external calls. -/

/-- The fields of `models.Download` that the handlers read and write. -/
structure DownloadRec where
  status : String
  progress : Nat
  message : String
  error : String
  bookTitle : String
  fileSize : Int
  epubSize : Int
  filePath : String
  cached : Bool
  minioURL : String
  epubURL : String
  deriving DecidableEq, Repr

/-- `cache.BookCacheInfo` as consumed by the cache-hit branch of
`DownloadBookHandler`. -/
structure CacheInfoRec where
  bookTitle : String
  epubPath : String
  epubSize : Int
  uploadedAt : Nat
  deriving DecidableEq, Repr

/-- External results visible to `DownloadBookHandler`: whether the Redis and
MinIO clients are configured, the outcome of `RedisClient.GetBookInfo`
(`none` covers both a lookup error and the not-found nil record, which the
guard `err == nil && cachedInfo != nil` treats alike), and the outcome of
`MinIOClient.GetPresignedURL` per object path (`none` = error). -/
structure HandlerEnv where
  redisConfigured : Bool
  minioConfigured : Bool
  cacheResult : Option CacheInfoRec
  presign : String → Option String

/-- What `DownloadBookHandler` produces: the HTTP status code, the `cached`
field of the JSON response, the `models.Download` record stored in the
`downloads` map, and whether `go downloadBookAsync(...)` was launched. -/
structure HandlerResult where
  code : Nat
  cachedFlag : Bool
  storedJob : Option DownloadRec
  startsAsyncRun : Bool
  deriving Repr

/-- `DownloadBookHandler`, given an already-decoded `book_id`.  An empty id
is rejected with 400.  The cache branch runs only with both clients
configured; it answers 200 with a completed job iff the cache record exists,
its `EpubPath` is non-empty, presigning it succeeds and the minted URL is
non-empty (the fresh `presignedEpubURL != ""` check).  Every other request
stores a `starting` job and launches the async pipeline, answering 202. -/
def downloadBookHandler (bookID : String) (env : HandlerEnv) : HandlerResult :=
  if bookID = "" then ⟨400, false, none, false⟩
  else
    let cacheHit : Option (CacheInfoRec × String) :=
      if env.redisConfigured ∧ env.minioConfigured then
        match env.cacheResult with
        | some info =>
          if info.epubPath ≠ "" then
            match env.presign info.epubPath with
            | some url => if url ≠ "" then some (info, url) else none
            | none => none
          else none
        | none => none
      else none
    match cacheHit with
    | some (info, url) =>
      ⟨200, true,
       some ⟨"completed", 100, "Book retrieved from cache", "", info.bookTitle,
             info.epubSize, info.epubSize, "", true, url, url⟩,
       false⟩
    | none =>
      ⟨202, false,
       some ⟨"starting", 0, "Initializing download...", "", "", 0, 0, "", false, "", ""⟩,
       true⟩

/-- Semaphore traffic attributable to one `DownloadBookHandler` call:
`downloadBookAsync` is spawned only when `startsAsyncRun`; an unspawned job
produces no semaphore events, a spawned one the events of its run. -/
def handlerSemEvents (r : HandlerResult) (renv : RunEnv) : List Ev :=
  if r.startsAsyncRun then (downloadBookAsync renv).1.filter isSemEv else []

/-- Responses of `GetStatusHandler`. -/
inductive StatusResp
  | notFound404
  | ok (status : String) (progress : Nat) (cached : Bool)
  deriving DecidableEq, Repr

/-- The `downloads` registry: download id to record. -/
def Registry : Type := String → Option DownloadRec

/-- `GetStatusHandler`: look the id up under the read lock; 404 when absent,
otherwise the JSON projection of the record. -/
def getStatusHandler (reg : Registry) (id : String) : StatusResp :=
  match reg id with
  | none => StatusResp.notFound404
  | some d => StatusResp.ok d.status d.progress d.cached

/-- Responses of `GetFileHandler`. -/
inductive FileResp
  | notFound404
  | notCompleted400
  | redirect307 (url : String)
  | noStorageURL404
  deriving DecidableEq, Repr

/-- `GetFileHandler`: 404 when the id is unknown, 400 when the job is not
completed, a 307 redirect to the job's MinIO URL when one is present, and a
404 otherwise.  No branch reads a local file. -/
def getFileHandler (lookup : Option DownloadRec) : FileResp :=
  match lookup with
  | none => FileResp.notFound404
  | some d =>
    if d.status ≠ "completed" then FileResp.notCompleted400
    else if d.minioURL ≠ "" then FileResp.redirect307 d.minioURL
    else FileResp.noStorageURL404

/-! ## Retention and removal

The success path schedules `cleanupDownload(downloadID)` five minutes after
completion (`time.Sleep(5 * time.Minute)` in the spawned goroutine); the
cache-hit handler path schedules the same five-minute removal.  The failure
path hands `cleanupDownload` to `Download.SetError`; that implementation of
`models.Download` is not part of this source tree. -/

/-- Retention after a successful completion, seconds: `5 * time.Minute`. -/
def successRetentionSeconds : Nat := 5 * 60

/-- Modelled from the spec: the `models.Download.SetError` implementation
receiving the cleanup callback is missing from the sources (the models
package present here predates it); per the spec a failed job is retained
2 minutes before removal. -/
def failureRetentionSeconds : Nat := 2 * 60

/-- A registry together with its scheduled removals `(id, due time)`,
absolute seconds. -/
structure TimedRegistry where
  reg : Registry
  pending : List (String × Nat)

/-- `cleanupDownload`: delete the entry when present. -/
def cleanupDownload (reg : Registry) (id : String) : Registry :=
  fun k => if k = id then none else reg k

/-- A job reaching a terminal state at time `now`: the terminal record is
written and its removal is scheduled after the applicable retention window
(five minutes for `completed`, two — modelled from the spec — for
`error`). -/
def finishJob (t : TimedRegistry) (id : String) (d : DownloadRec) (now : Nat) : TimedRegistry :=
  ⟨fun k => if k = id then some d else t.reg k,
   (id, now + (if d.status = "error" then failureRetentionSeconds
               else successRetentionSeconds)) :: t.pending⟩

/-- Timer firing: at time `now`, every pending removal that has come due has
run `cleanupDownload`; the rest stay pending. -/
def advanceTo (t : TimedRegistry) (now : Nat) : TimedRegistry :=
  ⟨fun k => if t.pending.any (fun p => p.1 == k && decide (p.2 ≤ now)) then none else t.reg k,
   t.pending.filter (fun p => decide (now < p.2))⟩

/-! ## The two counting semaphores

`downloadSemaphore = make(chan struct{}, 3)` and
`conversionSemaphore = make(chan struct{}, 2)`.  A send on a buffered
channel blocks exactly when the buffer is full, so acquisition is a guarded
transition; the channel length is part of the global state.  Each
`downloadBookAsync` goroutine moves through control regions delimited by the
semaphore operations of the run model above:

* `idle` — before the select on `downloadSemaphore`;
* `fetching` — holding a fetch slot: the record lookup, client creation and
  `client.Download()`, up to the send on `conversionSemaphore` (this region
  is left directly to `done` by the early returns, whose deferred reads
  release the fetch slot);
* `converting` — holding both slots: the Calibre invocation and fallback;
* `finishing` — the conversion slot has been read back (either right before
  the fallback-failure return or right after the fallback) and the fetch
  slot is still held: stat, upload, presign, completion or failure;
* `done` — returned; every path has released whatever it held. -/

/-- Control region of one pipeline goroutine. -/
inductive JobPhase
  | idle
  | fetching
  | converting
  | finishing
  | done
  deriving DecidableEq, Repr

/-- Whether a goroutine in this region holds a fetch slot. -/
def holdsFetch : JobPhase → Bool
  | JobPhase.fetching => true
  | JobPhase.converting => true
  | JobPhase.finishing => true
  | _ => false

/-- Whether a goroutine in this region holds a conversion slot. -/
def holdsConv : JobPhase → Bool
  | JobPhase.converting => true
  | _ => false

/-- Global scheduler state over `n` pipeline goroutines: the lengths of the
two buffered channels and the control region of each goroutine. -/
structure SchedState (n : Nat) where
  fetchSem : Nat
  convSem : Nat
  phase : Fin n → JobPhase

/-- Interleaving semantics: one goroutine takes its next step.  Semaphore
sends are guarded by the buffer capacities (3 and 2); reads decrement the
channel length.  `earlyExit` covers the returns before the conversion send
(missing record, client error, download error); `releaseConv` covers both
the fallback-failure read and the normal read after conversion; `finish`
covers every remaining return, whose deferred read releases the fetch
slot. -/
inductive SchedStep {n : Nat} : SchedState n → SchedState n → Prop
  | acquireFetch (s : SchedState n) (i : Fin n) :
      s.phase i = JobPhase.idle → s.fetchSem < 3 →
      SchedStep s ⟨s.fetchSem + 1, s.convSem, Function.update s.phase i JobPhase.fetching⟩
  | earlyExit (s : SchedState n) (i : Fin n) :
      s.phase i = JobPhase.fetching →
      SchedStep s ⟨s.fetchSem - 1, s.convSem, Function.update s.phase i JobPhase.done⟩
  | acquireConv (s : SchedState n) (i : Fin n) :
      s.phase i = JobPhase.fetching → s.convSem < 2 →
      SchedStep s ⟨s.fetchSem, s.convSem + 1, Function.update s.phase i JobPhase.converting⟩
  | releaseConv (s : SchedState n) (i : Fin n) :
      s.phase i = JobPhase.converting →
      SchedStep s ⟨s.fetchSem, s.convSem - 1, Function.update s.phase i JobPhase.finishing⟩
  | finish (s : SchedState n) (i : Fin n) :
      s.phase i = JobPhase.finishing →
      SchedStep s ⟨s.fetchSem - 1, s.convSem, Function.update s.phase i JobPhase.done⟩

/-- The initial state: empty channels, every goroutine before its select. -/
def initState (n : Nat) : SchedState n := ⟨0, 0, fun _ => JobPhase.idle⟩

/-- States reachable from the initial state by interleaved steps. -/
def SchedReachable {n : Nat} (s : SchedState n) : Prop :=
  Relation.ReflTransGen SchedStep (initState n) s

/-- The number of goroutines currently holding a fetch slot. -/
def fetchHolders {n : Nat} (s : SchedState n) : Nat :=
  (Finset.univ.filter (fun i => holdsFetch (s.phase i) = true)).card

/-- The number of goroutines currently inside the converter region. -/
def convHolders {n : Nat} (s : SchedState n) : Nat :=
  (Finset.univ.filter (fun i => holdsConv (s.phase i) = true)).card

theorem card_filter_update {n : Nat} (f : Fin n → JobPhase) (i : Fin n) (b : JobPhase)
    (p : JobPhase → Bool) :
    (Finset.univ.filter (fun j => p (Function.update f i b j) = true)).card
        + (if p (f i) then 1 else 0)
      = (Finset.univ.filter (fun j => p (f j) = true)).card + (if p b then 1 else 0) := by
  classical
  have hmem : i ∈ (Finset.univ : Finset (Fin n)) := Finset.mem_univ i
  have hins : (Finset.univ : Finset (Fin n)) = insert i (Finset.univ.erase i) :=
    (Finset.insert_erase hmem).symm
  have herase : ∀ g : Fin n → JobPhase,
      ((Finset.univ.erase i).filter (fun j => p (Function.update f i b j) = true))
        = ((Finset.univ.erase i).filter (fun j => p (f j) = true)) := by
    intro g
    apply Finset.filter_congr
    intro j hj
    have hne : j ≠ i := Finset.ne_of_mem_erase hj
    simp [Function.update_noteq hne]
  have hcard : ∀ (g : Fin n → JobPhase),
      (Finset.univ.filter (fun j => p (g j) = true)).card
        = ((Finset.univ.erase i).filter (fun j => p (g j) = true)).card
          + (if p (g i) then 1 else 0) := by
    intro g
    rw [hins, Finset.filter_insert]
    split
    · rw [Finset.card_insert_of_not_mem]
      simp
      intro hmem2
      exact absurd (Finset.mem_of_mem_filter i hmem2) (Finset.not_mem_erase i _)
    · simp
  rw [hcard (fun j => Function.update f i b j), hcard f, herase f]
  simp [Function.update_same]
  omega

/-- The inductive invariant: the channel lengths equal the holder counts and
respect the capacities. -/
def SchedInv {n : Nat} (s : SchedState n) : Prop :=
  s.fetchSem = fetchHolders s ∧ s.convSem = convHolders s ∧
    s.fetchSem ≤ 3 ∧ s.convSem ≤ 2

theorem schedInv_init (n : Nat) : SchedInv (initState n) := by
  refine ⟨?_, ?_, ?_, ?_⟩ <;> simp [initState, fetchHolders, convHolders, holdsFetch, holdsConv]

theorem holdsFetch_idle : holdsFetch JobPhase.idle = false := rfl

theorem holdsFetch_fetching : holdsFetch JobPhase.fetching = true := rfl

theorem holdsFetch_converting : holdsFetch JobPhase.converting = true := rfl

theorem holdsFetch_finishing : holdsFetch JobPhase.finishing = true := rfl

theorem holdsFetch_done : holdsFetch JobPhase.done = false := rfl

theorem holdsConv_idle : holdsConv JobPhase.idle = false := rfl

theorem holdsConv_fetching : holdsConv JobPhase.fetching = false := rfl

theorem holdsConv_converting : holdsConv JobPhase.converting = true := rfl

theorem holdsConv_finishing : holdsConv JobPhase.finishing = false := rfl

theorem holdsConv_done : holdsConv JobPhase.done = false := rfl

theorem schedInv_step {n : Nat} {s s' : SchedState n}
    (hinv : SchedInv s) (hstep : SchedStep s s') : SchedInv s' := by
  obtain ⟨hf, hc, hf3, hc2⟩ := hinv
  cases hstep with
  | acquireFetch i hph hcap =>
    have h1 := card_filter_update s.phase i JobPhase.fetching holdsFetch
    have h2 := card_filter_update s.phase i JobPhase.fetching holdsConv
    rw [hph, holdsFetch_idle, holdsFetch_fetching] at h1
    rw [hph, holdsConv_idle, holdsConv_fetching] at h2
    simp only [Bool.false_eq_true, if_false, if_true, Nat.add_zero] at h1 h2
    refine ⟨?_, ?_, ?_, ?_⟩ <;>
      simp only [fetchHolders, convHolders] at h1 h2 hf hc ⊢ <;> omega
  | earlyExit i hph =>
    have h1 := card_filter_update s.phase i JobPhase.done holdsFetch
    have h2 := card_filter_update s.phase i JobPhase.done holdsConv
    rw [hph, holdsFetch_fetching, holdsFetch_done] at h1
    rw [hph, holdsConv_fetching, holdsConv_done] at h2
    simp only [Bool.false_eq_true, if_false, if_true, Nat.add_zero] at h1 h2
    refine ⟨?_, ?_, ?_, ?_⟩ <;>
      simp only [fetchHolders, convHolders] at h1 h2 hf hc ⊢ <;> omega
  | acquireConv i hph hcap =>
    have h1 := card_filter_update s.phase i JobPhase.converting holdsFetch
    have h2 := card_filter_update s.phase i JobPhase.converting holdsConv
    rw [hph, holdsFetch_fetching, holdsFetch_converting] at h1
    rw [hph, holdsConv_fetching, holdsConv_converting] at h2
    simp only [Bool.false_eq_true, if_false, if_true, Nat.add_zero] at h1 h2
    refine ⟨?_, ?_, ?_, ?_⟩ <;>
      simp only [fetchHolders, convHolders] at h1 h2 hf hc ⊢ <;> omega
  | releaseConv i hph =>
    have h1 := card_filter_update s.phase i JobPhase.finishing holdsFetch
    have h2 := card_filter_update s.phase i JobPhase.finishing holdsConv
    rw [hph, holdsFetch_converting, holdsFetch_finishing] at h1
    rw [hph, holdsConv_converting, holdsConv_finishing] at h2
    simp only [Bool.false_eq_true, if_false, if_true, Nat.add_zero] at h1 h2
    refine ⟨?_, ?_, ?_, ?_⟩ <;>
      simp only [fetchHolders, convHolders] at h1 h2 hf hc ⊢ <;> omega
  | finish i hph =>
    have h1 := card_filter_update s.phase i JobPhase.done holdsFetch
    have h2 := card_filter_update s.phase i JobPhase.done holdsConv
    rw [hph, holdsFetch_finishing, holdsFetch_done] at h1
    rw [hph, holdsConv_finishing, holdsConv_done] at h2
    simp only [Bool.false_eq_true, if_false, if_true, Nat.add_zero] at h1 h2
    refine ⟨?_, ?_, ?_, ?_⟩ <;>
      simp only [fetchHolders, convHolders] at h1 h2 hf hc ⊢ <;> omega

theorem schedInv_reachable {n : Nat} {s : SchedState n}
    (h : SchedReachable s) : SchedInv s := by
  induction h with
  | refl => exact schedInv_init n
  | tail _ hstep ih => exact schedInv_step ih hstep

/-! ## Claims -/

/-- C9: for every input string, `cleanFilename` (handlers version) returns a
string of byte length at most 100, containing only ASCII letters, digits,
spaces, hyphens and underscores, equal to the subsequence of the input
consisting of exactly those characters truncated to 100 bytes (every
retained character is a single UTF-8 byte, so byte and character counts
agree). -/
theorem C9_cleanFilename_spec (name : GoStr) :
    (cleanFilename name).length ≤ 100 ∧
    (∀ c ∈ cleanFilename name, isAllowedChar c = true) ∧
    (∀ c ∈ cleanFilename name, c.toNat < 128) ∧
    cleanFilename name = (name.filter isAllowedChar).take 100 := by
  have heq := cleanFilename_eq_filter_take name
  have hmem : ∀ c ∈ cleanFilename name, isAllowedChar c = true := by
    intro c hc
    rw [heq] at hc
    exact (List.mem_filter.mp (List.mem_of_mem_take hc)).2
  refine ⟨?_, hmem, ?_, heq⟩
  · rw [heq]
    exact List.length_take_le 100 _
  · intro c hc
    exact isAllowedChar_ascii c (hmem c hc)

/-- Witness for C9 at a concrete input. -/
theorem C9_witness :
    (cleanFilename "My Book: Vol 1! (2nd ed.)".toList).length ≤ 100 ∧
    cleanFilename "My Book: Vol 1! (2nd ed.)".toList
      = ("My Book: Vol 1! (2nd ed.)".toList.filter isAllowedChar).take 100 ∧
    cleanFilename "My Book: Vol 1! (2nd ed.)".toList = "My Book Vol 1 2nd ed".toList := by
  refine ⟨(C9_cleanFilename_spec _).1, (C9_cleanFilename_spec _).2.2.2, ?_⟩
  decide

/-- C10: `contains(s, substr)` — through its layered prefix, suffix and
`findSubstring` checks — is extensionally the standard contiguous-substring
predicate; in particular every string contains the empty string. -/
theorem C10_contains_spec (s substr : GoStr) :
    (contains s substr = true ↔ occursIn substr s) ∧ contains s [] = true := by
  constructor
  · rw [contains_iff_aux, occursIn_iff_exists_drop_take]
  · rw [contains_iff_aux]
    exact ⟨0, by simp, by simp⟩

/-- Witness for C10 at concrete inputs. -/
theorem C10_witness :
    contains "hello world".toList "lo wo".toList = true ∧
    occursIn "lo wo".toList "hello world".toList ∧
    contains "abc".toList "zzz".toList = false := by
  refine ⟨by decide, (C10_contains_spec "hello world".toList "lo wo".toList).1.mp (by decide),
    by decide⟩

/-- C1: the claim (and spec) say the progress of a successful run never
decreases; the code violates this.  On a successful non-cached run of a
one-chapter book the status writes carry, in order,
10, 20, 15, 25, 28, 50, 50, 60, 70, 80, 100, 80, 90, 100, 100: the value
100 written at the end of EPUB packaging (`CreateEPUB`) is followed by 80 at
the convert step (`Converting with Calibre...`), and 20 (`Downloading book
content...`) is followed by 15 (`Retrieving book info...`). -/
theorem C1_progress_not_monotone :
    progressTrace (downloadBookAsync oneChapterSuccessEnv).1
        = [10, 20, 15, 25, 28, 50, 50, 60, 70, 80, 100, 80, 90, 100, 100] ∧
    (downloadBookAsync oneChapterSuccessEnv).2 = Outcome.completed ∧
    ¬ List.Chain' (fun a b => a ≤ b) (progressTrace (downloadBookAsync oneChapterSuccessEnv).1) := by
  have h1 : progressTrace (downloadBookAsync oneChapterSuccessEnv).1
      = [10, 20, 15, 25, 28, 50, 50, 60, 70, 80, 100, 80, 90, 100, 100] := by decide
  refine ⟨h1, by decide, ?_⟩
  rw [h1]
  simp [List.chain'_cons]

/-- C5 counterexample: on a non-zero exit the returned error is the generic
wrapped run error and does not carry the captured stderr (which is only
logged); and the error returned after a timeout kill is identical to the
error of the same failed run without a timeout, so the return value carries
no `Timeout` kind. -/
theorem C5_counterexample :
    (convertWithCalibre ⟨false, "exit status 1".toList, "calibre: bad input".toList, false⟩).retErr
        = some "conversion failed: exit status 1".toList ∧
    contains "conversion failed: exit status 1".toList "calibre: bad input".toList = false ∧
    ("calibre: bad input".toList.take 500 = "calibre: bad input".toList) ∧
    (convertWithCalibre ⟨false, "signal: killed".toList, [], true⟩).retErr
        = (convertWithCalibre ⟨false, "signal: killed".toList, [], false⟩).retErr := by
  refine ⟨by decide, by decide, by decide, by decide⟩

/-- C5 amended: `convertWithCalibre` arms a 5-minute (300-second) timer
whose expiry kills the subprocess; whenever `cmd.Run` reports an error the
function returns the wrapped error `conversion failed: <run error>`, with no
distinguished timeout kind and without the stderr text; the first 500 bytes
of a non-empty captured stderr (with `...` appended when truncated) go to
the log only. -/
theorem C5_convert_behavior (env : ConvertEnv) :
    convertTimeoutSeconds = 300 ∧
    (convertWithCalibre env).killed = env.deadlineElapsed ∧
    ((convertWithCalibre env).retErr = none ↔ env.runOk = true) ∧
    (env.runOk = false →
      (convertWithCalibre env).retErr = some ("conversion failed: ".toList ++ env.runErrMsg)) ∧
    (env.runOk = false → env.stderrOutput ≠ [] → 500 < env.stderrOutput.length →
      (convertWithCalibre env).loggedStderr = some (env.stderrOutput.take 500 ++ "...".toList)) ∧
    (env.runOk = false → env.stderrOutput ≠ [] → env.stderrOutput.length ≤ 500 →
      (convertWithCalibre env).loggedStderr = some env.stderrOutput) ∧
    (∀ l, (convertWithCalibre env).loggedStderr = some l → l.length ≤ 503) := by
  refine ⟨rfl, rfl, ?_, ?_, ?_, ?_, ?_⟩
  · cases henv : env.runOk <;> simp [convertWithCalibre, henv]
  · intro h
    simp [convertWithCalibre, h]
  · intro h hne hlen
    simp only [convertWithCalibre, truncateErrMsg, h, List.isEmpty_iff]
    rw [if_neg (by simp), if_neg hne, if_pos hlen]
  · intro h hne hlen
    simp only [convertWithCalibre, truncateErrMsg, h, List.isEmpty_iff]
    rw [if_neg (by simp), if_neg hne, if_neg (by omega)]
  · intro l hl
    simp only [convertWithCalibre, truncateErrMsg, List.isEmpty_iff] at hl
    by_cases h : env.runOk
    · rw [if_pos h] at hl
      exact absurd hl (by simp)
    · rw [if_neg h] at hl
      by_cases hne : env.stderrOutput = []
      · rw [if_pos hne] at hl
        exact absurd hl (by simp)
      · rw [if_neg hne] at hl
        by_cases hlen : 500 < env.stderrOutput.length
        · rw [if_pos hlen] at hl
          have hleq : l = env.stderrOutput.take 500 ++ "...".toList := by
            injection hl with h2
            exact h2.symm
          have h5 : (env.stderrOutput.take 500).length ≤ 500 := List.length_take_le 500 _
          have h3 : ("...".toList).length = 3 := rfl
          rw [hleq, List.length_append]
          omega
        · rw [if_neg hlen] at hl
          have hleq : l = env.stderrOutput := by
            injection hl with h2
            exact h2.symm
          rw [hleq]
          omega

/-- Witness for C5 amended at a concrete environment. -/
theorem C5_witness :
    (convertWithCalibre ⟨false, "exit status 2".toList, "oops".toList, false⟩).retErr
        = some "conversion failed: exit status 2".toList ∧
    (convertWithCalibre ⟨false, "exit status 2".toList, "oops".toList, false⟩).loggedStderr
        = some "oops".toList := by
  have h := C5_convert_behavior ⟨false, "exit status 2".toList, "oops".toList, false⟩
  refine ⟨?_, h.2.2.2.2.2.1 rfl (by decide) (by decide)⟩
  have h2 := h.2.2.2.1 rfl
  rw [h2]
  decide

theorem filter_queued_map (l : List Nat) :
    (l.map (Ev.update "downloading")).filter isQueuedUpdate = [] := by
  induction l with
  | nil => rfl
  | cons a l ih =>
    simp only [List.map_cons, List.filter_cons]
    rw [if_neg (by simp [isQueuedUpdate])]
    exact ih

theorem run_no_queued (env : RunEnv) :
    (downloadBookAsync env).1.filter isQueuedUpdate = [] := by
  obtain ⟨sf, jp, nce, fe, fp, cf, co, cet, mc, ue, pe⟩ := env
  simp only [downloadBookAsync]
  cases sf <;> cases jp <;> cases nce <;> cases fe <;> cases cf <;> cases co <;> cases mc <;>
    cases ue <;> cases pe <;>
    simp [List.filter_append, filter_queued_map, isQueuedUpdate]

theorem run_takeWhile_no_update (env : RunEnv) :
    ((downloadBookAsync env).1.takeWhile (fun e => e != Ev.acqFetch)).filter isUpdate = [] := by
  obtain ⟨sf, jp, nce, fe, fp, cf, co, cet, mc, ue, pe⟩ := env
  simp only [downloadBookAsync]
  cases sf <;> cases jp <;> cases nce <;> cases fe <;> cases cf <;> cases co <;> cases mc <;>
    cases ue <;> cases pe <;>
    simp [List.takeWhile_cons, isUpdate, bne]

theorem run_first_update (env : RunEnv) (h : env.jobPresent = true) :
    (downloadBookAsync env).1.take (if env.slotFree then 2 else 3)
      = if env.slotFree then [Ev.acqFetch, Ev.update "downloading" 10]
        else [Ev.queueLog, Ev.acqFetch, Ev.update "downloading" 10] := by
  obtain ⟨sf, jp, nce, fe, fp, cf, co, cet, mc, ue, pe⟩ := env
  simp only at h
  subst h
  simp only [downloadBookAsync]
  cases sf <;> cases nce <;> cases fe <;> cases cf <;> cases co <;> cases mc <;>
    cases ue <;> cases pe <;> simp

/-- The environment of a run that found no free fetch slot at its select
(so it logged and blocked) and afterwards ran to completion. -/
def queuedWaitEnv : RunEnv :=
  ⟨false, true, none, none, [30], false, true, [], true, false, false⟩

/-- C7 counterexample: a run whose fetch-slot acquisition blocks emits no
status update at all while it waits — the events before the acquisition are
exactly the queue log line — and no update carrying a `queued` status ever
appears in the whole run, so the job's state is not updated to Queued. -/
theorem C7_counterexample :
    ((downloadBookAsync queuedWaitEnv).1.takeWhile (fun e => e != Ev.acqFetch))
        = [Ev.queueLog] ∧
    (downloadBookAsync queuedWaitEnv).1.filter isQueuedUpdate = [] ∧
    (downloadBookAsync queuedWaitEnv).2 = Outcome.completed := by
  refine ⟨by decide, by decide, by decide⟩

/-- C7 amended: no `queued` status is ever written.  A job that cannot
immediately acquire a fetch slot keeps the `starting` status stored by the
handler while it waits (only the queue log line precedes the acquisition,
and no status update precedes it), and in either case the first status
update is the `downloading` write with progress 10, emitted after the slot
is acquired. -/
theorem C7_queue_wait_behavior (env : RunEnv) :
    (downloadBookAsync env).1.filter isQueuedUpdate = [] ∧
    ((downloadBookAsync env).1.takeWhile (fun e => e != Ev.acqFetch)).filter isUpdate = [] ∧
    (env.jobPresent = true →
      (downloadBookAsync env).1.take (if env.slotFree then 2 else 3)
        = if env.slotFree then [Ev.acqFetch, Ev.update "downloading" 10]
          else [Ev.queueLog, Ev.acqFetch, Ev.update "downloading" 10]) :=
  ⟨run_no_queued env, run_takeWhile_no_update env, fun h => run_first_update env h⟩

/-- Witness for C7 amended at a concrete blocked-acquisition environment. -/
theorem C7_witness :
    (downloadBookAsync queuedWaitEnv).1.filter isQueuedUpdate = [] ∧
    (downloadBookAsync queuedWaitEnv).1.take 3
      = [Ev.queueLog, Ev.acqFetch, Ev.update "downloading" 10] := by
  have h := C7_queue_wait_behavior queuedWaitEnv
  exact ⟨h.1, by simpa using h.2.2 rfl⟩

/-- C2: in every state reachable under the interleaving semantics, at most
3 pipeline goroutines hold a fetch slot (held across the download, convert
and upload control regions until the goroutine returns) and at most 2 are
inside the converter region; the channel lengths track the holder counts
exactly, so every slot acquired on any path has been released once all
goroutines are done. -/
theorem C2_capacity_invariant {n : Nat} (s : SchedState n) (h : SchedReachable s) :
    fetchHolders s ≤ 3 ∧ convHolders s ≤ 2 ∧
    s.fetchSem = fetchHolders s ∧ s.convSem = convHolders s ∧
    ((∀ i, s.phase i = JobPhase.done) → s.fetchSem = 0 ∧ s.convSem = 0) := by
  obtain ⟨hf, hc, hf3, hc2⟩ := schedInv_reachable h
  refine ⟨by omega, by omega, hf, hc, ?_⟩
  intro hall
  have h1 : fetchHolders s = 0 := by
    unfold fetchHolders
    rw [Finset.card_eq_zero, Finset.filter_eq_empty_iff]
    intro i _
    rw [hall i, holdsFetch_done]
    simp
  have h2 : convHolders s = 0 := by
    unfold convHolders
    rw [Finset.card_eq_zero, Finset.filter_eq_empty_iff]
    intro i _
    rw [hall i, holdsConv_done]
    simp
  omega

/-- A concrete reachable scheduler state over four goroutines: the first has
acquired a fetch slot, the rest are idle. -/
def schedWitnessState : SchedState 4 :=
  ⟨0 + 1, 0, Function.update (initState 4).phase (0 : Fin 4) JobPhase.fetching⟩

/-- Witness for C2 at a concrete reachable state. -/
theorem C2_witness :
    fetchHolders schedWitnessState ≤ 3 ∧ convHolders schedWitnessState ≤ 2 ∧
    schedWitnessState.fetchSem = fetchHolders schedWitnessState ∧
    schedWitnessState.convSem = convHolders schedWitnessState ∧
    ((∀ i, schedWitnessState.phase i = JobPhase.done) →
      schedWitnessState.fetchSem = 0 ∧ schedWitnessState.convSem = 0) :=
  C2_capacity_invariant schedWitnessState
    (Relation.ReflTransGen.single
      (SchedStep.acquireFetch (initState 4) (0 : Fin 4) rfl (by decide)))

/-- C3: a download request for a non-empty `book_id` that has a
metadata-cache record with a non-empty artifact key, when presigned-URL
minting succeeds (yielding, per the storage contract, a non-empty URL), is
answered 200 with `cached = true`; the stored job is immediately completed
with progress 100, and the pipeline goroutine is never launched for it, so
it produces no semaphore traffic: no fetch slot and no convert slot is ever
acquired. -/
theorem C3_cache_hit (bookID : String) (env : HandlerEnv) (info : CacheInfoRec) (url : String)
    (hid : bookID ≠ "") (hr : env.redisConfigured = true) (hm : env.minioConfigured = true)
    (hc : env.cacheResult = some info) (hp : info.epubPath ≠ "")
    (hu : env.presign info.epubPath = some url) (hne : url ≠ "") :
    (downloadBookHandler bookID env).code = 200 ∧
    (downloadBookHandler bookID env).cachedFlag = true ∧
    (∃ j, (downloadBookHandler bookID env).storedJob = some j ∧
      j.status = "completed" ∧ j.progress = 100 ∧ j.cached = true ∧
      j.minioURL = url ∧ j.bookTitle = info.bookTitle) ∧
    (downloadBookHandler bookID env).startsAsyncRun = false ∧
    (∀ renv, handlerSemEvents (downloadBookHandler bookID env) renv = []) := by
  have hres : downloadBookHandler bookID env
      = ⟨200, true,
         some ⟨"completed", 100, "Book retrieved from cache", "", info.bookTitle,
               info.epubSize, info.epubSize, "", true, url, url⟩,
         false⟩ := by
    unfold downloadBookHandler
    rw [if_neg hid]
    simp only [hr, hm, hc, hu]
    rw [if_pos (by simp)]
    rw [if_pos hp, if_pos hne]
  rw [hres]
  refine ⟨rfl, rfl, ⟨_, rfl, rfl, rfl, rfl, rfl, rfl⟩, rfl, ?_⟩
  intro renv
  unfold handlerSemEvents
  rw [if_neg (by simp)]

/-- A concrete cache-hit handler environment. -/
def cacheHitEnv : HandlerEnv :=
  ⟨true, true, some ⟨"Deep Learning", "9781617294433/book.epub", 512, 0⟩,
   fun p => if p = "9781617294433/book.epub" then some "https://minio.local/signed" else none⟩

/-- Witness for C3 at a concrete request and environment. -/
theorem C3_witness :
    (downloadBookHandler "9781617294433" cacheHitEnv).code = 200 ∧
    (downloadBookHandler "9781617294433" cacheHitEnv).cachedFlag = true ∧
    (downloadBookHandler "9781617294433" cacheHitEnv).startsAsyncRun = false ∧
    handlerSemEvents (downloadBookHandler "9781617294433" cacheHitEnv) oneChapterSuccessEnv
      = [] := by
  have h := C3_cache_hit "9781617294433" cacheHitEnv
    ⟨"Deep Learning", "9781617294433/book.epub", 512, 0⟩ "https://minio.local/signed"
    (by decide) rfl rfl rfl (by decide) (by decide) (by decide)
  exact ⟨h.1, h.2.1, h.2.2.2.1, h.2.2.2.2 oneChapterSuccessEnv⟩

theorem copyFailMsg_distinct (d : GoStr) :
    copyFailMsg d ≠ "Failed to upload to storage".toList ∧
    copyFailMsg d ≠ "Failed to generate download URL".toList ∧
    copyFailMsg d ≠ storageUnavailableMsg := by
  refine ⟨?_, ?_, ?_⟩
  · intro h
    have h10 := congrArg (fun l => l[10]?) h
    simp only [copyFailMsg] at h10
    rw [List.getElem?_append, if_pos (by decide)] at h10
    revert h10
    decide
  · intro h
    have h10 := congrArg (fun l => l[10]?) h
    simp only [copyFailMsg] at h10
    rw [List.getElem?_append, if_pos (by decide)] at h10
    revert h10
    decide
  · intro h
    have h0 := congrArg (fun l => l[0]?) h
    simp only [copyFailMsg, storageUnavailableMsg] at h0
    rw [List.getElem?_append, if_pos (by decide)] at h0
    revert h0
    decide

/-- C4: when the converter invocation fails, the orchestrator falls back to
`copyFile`, which writes the input file's bytes verbatim to the output path
and leaves every other path untouched; with a successful copy the pipeline
continues (and completes when the remaining steps succeed — its only other
outcomes are the post-conversion upload, presign and storage failures, none
of which is the convert-step failure); the job fails at the convert step,
with the `Failed to save EPUB file` error, exactly when the byte-copy
itself also fails. -/
theorem C4_convert_fallback (fs : FileSys) (src dst : String) (bytes : List Nat) (env : RunEnv)
    (hread : fs src = some bytes) (hcf : env.convertFails = true)
    (hjp : env.jobPresent = true) (hnc : env.newClientErr = none) (hfe : env.fetchErr = none) :
    (∃ fs2, copyFile fs true src dst = some fs2 ∧ fs2 dst = some bytes ∧
      ∀ p, p ≠ dst → fs2 p = fs p) ∧
    (env.copyOk = false →
      (downloadBookAsync env).2 = Outcome.failed (copyFailMsg env.copyErrText)) ∧
    (env.copyOk = true →
      (downloadBookAsync env).2 = Outcome.completed ∨
      (downloadBookAsync env).2 = Outcome.failed "Failed to upload to storage".toList ∨
      (downloadBookAsync env).2 = Outcome.failed "Failed to generate download URL".toList ∨
      (downloadBookAsync env).2 = Outcome.failed storageUnavailableMsg) ∧
    (env.copyOk = true → env.minioConfigured = true → env.uploadErr = false →
      env.presignErr = false → (downloadBookAsync env).2 = Outcome.completed) ∧
    (∀ d, Outcome.failed (copyFailMsg d) ≠ Outcome.completed ∧
      copyFailMsg d ≠ "Failed to upload to storage".toList ∧
      copyFailMsg d ≠ "Failed to generate download URL".toList ∧
      copyFailMsg d ≠ storageUnavailableMsg) := by
  obtain ⟨sf, jp, nce, fe, fp, cf, co, cet, mc, ue, pe⟩ := env
  simp only at hcf hjp hnc hfe
  subst hcf hjp hnc hfe
  refine ⟨?_, ?_, ?_, ?_, ?_⟩
  · unfold copyFile
    rw [hread]
    refine ⟨_, rfl, by simp, fun p hp => by simp [hp]⟩
  · intro hco
    simp only at hco
    subst hco
    simp only [downloadBookAsync]
    cases sf <;> simp
  · intro hco
    simp only at hco
    subst hco
    simp only [downloadBookAsync]
    cases sf <;> cases mc <;> cases ue <;> cases pe <;> simp
  · intro hco hmc hue hpe
    simp only at hco hmc hue hpe
    subst hco hmc hue hpe
    simp only [downloadBookAsync]
    cases sf <;> simp
  · intro d
    have h := copyFailMsg_distinct d
    exact ⟨by simp, h.1, h.2.1, h.2.2⟩

/-- A file system holding the downloaded input artifact. -/
def witnessFS : FileSys := fun p => if p = "in.epub" then some [1, 2, 3] else none

/-- The environment of a run whose conversion fails, whose fallback copy
succeeds and whose remaining steps succeed. -/
def convertFallbackEnv : RunEnv :=
  ⟨true, true, none, none, [], true, true, [], true, false, false⟩

/-- Witness for C4 at a concrete environment and file system. -/
theorem C4_witness :
    (downloadBookAsync convertFallbackEnv).2 = Outcome.completed ∧
    (copyFile witnessFS true "in.epub" "out.epub").isSome = true := by
  have h := C4_convert_fallback witnessFS "in.epub" "out.epub" [1, 2, 3] convertFallbackEnv
    (by decide) rfl rfl rfl rfl
  refine ⟨h.2.2.2.1 rfl rfl rfl rfl, ?_⟩
  obtain ⟨fs2, hc2, _, _⟩ := h.1
  rw [hc2]
  rfl

/-- C6: with the object store client unconfigured no pipeline run ever
reaches `completed`; a non-cached job whose fetch and convert phases succeed
ends failed with the storage-unavailable error.  The file endpoint never
serves a local file: its response is independent of the job's `FilePath`
field, a completed job is answered only with a 307 redirect to its presigned
MinIO URL (or 404 when no URL exists), and unknown ids get 404. -/
theorem C6_storage_unavailable (env : RunEnv) (d : DownloadRec) (fp : String)
    (hm : env.minioConfigured = false) :
    (downloadBookAsync env).2 ≠ Outcome.completed ∧
    (env.jobPresent = true → env.newClientErr = none → env.fetchErr = none →
      (env.convertFails = true → env.copyOk = true) →
      (downloadBookAsync env).2 = Outcome.failed storageUnavailableMsg) ∧
    getFileHandler (some { d with filePath := fp }) = getFileHandler (some d) ∧
    (d.status = "completed" → getFileHandler (some d)
        = if d.minioURL ≠ "" then FileResp.redirect307 d.minioURL else FileResp.noStorageURL404) ∧
    getFileHandler none = FileResp.notFound404 := by
  obtain ⟨sf, jp, nce, fe, fpr, cf, co, cet, mc, ue, pe⟩ := env
  simp only at hm
  subst hm
  refine ⟨?_, ?_, ?_, ?_, rfl⟩
  · simp only [downloadBookAsync]
    cases sf <;> cases jp <;> cases nce <;> cases fe <;> cases cf <;> cases co <;> simp
  · intro hjp hnc hfe hcc
    simp only at hjp hnc hfe
    subst hjp hnc hfe
    simp only [downloadBookAsync]
    cases sf <;> cases cf <;> cases co <;> simp_all
  · rfl
  · intro hst
    have hred : getFileHandler (some d)
        = if d.status ≠ "completed" then FileResp.notCompleted400
          else if d.minioURL ≠ "" then FileResp.redirect307 d.minioURL
          else FileResp.noStorageURL404 := rfl
    rw [hred, if_neg (fun hcon => hcon hst)]

/-- The environment of a non-cached run with the object store unconfigured
whose fetch and convert phases succeed. -/
def noStorageEnv : RunEnv :=
  ⟨true, true, none, none, [20], false, true, [], false, false, false⟩

/-- A completed download record carrying a presigned URL. -/
def completedRec : DownloadRec :=
  ⟨"completed", 100, "Download complete!", "", "Some Book", 512, 512, "", false,
   "https://minio.local/signed", "https://minio.local/signed"⟩

/-- Witness for C6 at a concrete environment and record. -/
theorem C6_witness :
    (downloadBookAsync noStorageEnv).2 = Outcome.failed storageUnavailableMsg ∧
    (downloadBookAsync noStorageEnv).2 ≠ Outcome.completed ∧
    getFileHandler (some completedRec) = FileResp.redirect307 "https://minio.local/signed" := by
  have h := C6_storage_unavailable noStorageEnv completedRec "/tmp/x.epub" rfl
  refine ⟨h.2.1 rfl rfl rfl (fun hc => by cases hc), h.1, ?_⟩
  have h4 := h.2.2.2.1 rfl
  rw [h4]
  rfl

/-- C8: a job that reaches a terminal state at time `now` is scheduled for
removal after its retention window — five minutes for `completed`, two
minutes (modelled from the spec) for `error` failures; once the window has
elapsed the registry entry is gone and the status endpoint answers 404,
while before it elapses (the job's id being fresh among pending removals)
the status endpoint still serves the terminal record. -/
theorem C8_retention (t : TimedRegistry) (id : String) (d : DownloadRec) (now fin : Nat)
    (_hterm : d.status = "completed" ∨ d.status = "error")
    (hfresh : ∀ p ∈ t.pending, p.1 ≠ id) :
    successRetentionSeconds = 5 * 60 ∧ failureRetentionSeconds = 2 * 60 ∧
    (now + (if d.status = "error" then failureRetentionSeconds else successRetentionSeconds)
        ≤ fin →
      getStatusHandler (advanceTo (finishJob t id d now) fin).reg id
        = StatusResp.notFound404) ∧
    (fin < now + (if d.status = "error" then failureRetentionSeconds
                  else successRetentionSeconds) →
      getStatusHandler (advanceTo (finishJob t id d now) fin).reg id
        = StatusResp.ok d.status d.progress d.cached) := by
  refine ⟨rfl, rfl, ?_, ?_⟩
  · intro hdue
    unfold getStatusHandler advanceTo finishJob
    simp only [List.any_cons]
    rw [if_pos]
    simp [hdue]
  · intro hdue
    unfold getStatusHandler advanceTo finishJob
    simp only [List.any_cons]
    rw [if_neg]
    · simp
    · simp only [Bool.or_eq_true, Bool.and_eq_true, beq_iff_eq, decide_eq_true_eq,
        List.any_eq_true, not_or]
      constructor
      · intro hc
        omega
      · rintro ⟨p, hmem, hpid, _⟩
        exact hfresh p hmem hpid

/-- A failed download record (`SetError` writes status `error`). -/
def failedRec : DownloadRec :=
  ⟨"error", 80, "Failed to upload to storage", "Failed to upload to storage", "", 0, 0, "",
   false, "", ""⟩

/-- Witness for C8 at a concrete failed job: finished at second 1000, the
job is still queryable at second 1100 and gone (404) at second 1120. -/
theorem C8_witness :
    getStatusHandler
        (advanceTo (finishJob ⟨fun _ => none, []⟩ "job-1" failedRec 1000) 1120).reg "job-1"
      = StatusResp.notFound404 ∧
    getStatusHandler
        (advanceTo (finishJob ⟨fun _ => none, []⟩ "job-1" failedRec 1000) 1100).reg "job-1"
      = StatusResp.ok "error" 80 false := by
  have h1 := C8_retention ⟨fun _ => none, []⟩ "job-1" failedRec 1000 1120
    (Or.inr rfl) (by simp)
  have h2 := C8_retention ⟨fun _ => none, []⟩ "job-1" failedRec 1000 1100
    (Or.inr rfl) (by simp)
  exact ⟨h1.2.2.1 (by decide), h2.2.2.2 (by decide)⟩
